import Mathlib

/-!
Verification of the stock-tracker portfolio valuation, aggregation and
ranking engines.  The definitions below are a shallow embedding of the
TypeScript source: dates are year/month/day triples, a combined data point
maps each ticker symbol to an optional rational price (absent covers
null/undefined/non-number), and monetary arithmetic is over the rationals.
-/

namespace StockTracker

/-- A calendar date at day precision (year, month, day). -/
structure DateYMD where
  y : Nat
  m : Nat
  d : Nat
deriving DecidableEq, Repr

/-- One combined data point: a date together with the per-symbol price
column, where absence models null/undefined/non-numeric values. -/
structure PricePoint where
  date : DateYMD
  prices : String → Option Rat

/-- A portfolio definition: association list from symbol to invested
dollars; the reserved symbol "cash_amount" denotes cash held. -/
abbrev Portfolio := List (String × Rat)

/-- The validity filter used everywhere in the source: a value counts only
when it is a number strictly greater than zero. -/
def validPrice : Option Rat → Option Rat
  | none => none
  | some q => if 0 < q then some q else none

/-- First valid (> 0) price for a symbol scanning the combined data in
order; mirrors the forward scans with break-on-first-hit in the source. -/
def firstValidPrice (data : List PricePoint) (s : String) : Option Rat :=
  data.findSome? (fun pt => validPrice (pt.prices s))

/-- The initial-price map of PortfolioTable.calculatePortfolioData: built
over all portfolio symbols except the reserved "cash_amount" key, taking
the first valid price in the combined data. -/
def initialPrice (data : List PricePoint) (s : String) : Option Rat :=
  if s = "cash_amount" then none else firstValidPrice data s

/-- Share count for an investment in a symbol: investment divided by the
initial price when one exists (the source re-checks positivity), else 0. -/
def sharesOf (data : List PricePoint) (inv : Rat) (s : String) : Rat :=
  match initialPrice data s with
  | some p => if 0 < p then inv / p else 0
  | none => 0

/-- Price resolution for a symbol at the data point of index idx:
rule 1 uses the current date's valid price; rule 2 scans backwards through
the earlier points (indices idx-1 down to 0) for the most recent valid
price; none signals that rule 3 (raw-dollar fallback) applies. -/
def resolvePrice (data : List PricePoint) (idx : Nat) (pt : PricePoint)
    (s : String) : Option Rat :=
  match validPrice (pt.prices s) with
  | some p => some p
  | none => firstValidPrice ((data.take idx).reverse) s

/-- Contribution of one portfolio entry to the portfolio value at the data
point of index idx: cash_amount is added verbatim; an entry whose share
count is 0 is skipped; otherwise shares times the resolved price, or the
raw invested amount when no price resolves (rule 3). -/
def entryContribution (data : List PricePoint) (idx : Nat) (pt : PricePoint)
    (e : String × Rat) : Rat :=
  if e.1 = "cash_amount" then e.2
  else
    let numShares := sharesOf data e.2 e.1
    if numShares = 0 then 0
    else
      match resolvePrice data idx pt e.1 with
      | some p => numShares * p
      | none => e.2

/-- Total value of one portfolio at the data point of index idx. -/
def portfolioValueAt (data : List PricePoint) (idx : Nat) (pt : PricePoint)
    (pf : Portfolio) : Rat :=
  (pf.map (entryContribution data idx pt)).sum

/-- The valuation engine of PortfolioTable.calculatePortfolioData: one
output row per input data point, carrying the date and each person's
portfolio value on that date. -/
def calculatePortfolioData (portfolios : List (String × Portfolio))
    (data : List PricePoint) : List (DateYMD × List (String × Rat)) :=
  data.enum.map (fun ip =>
    (ip.2.date, portfolios.map (fun pp =>
      (pp.1, portfolioValueAt data ip.1 ip.2 pp.2))))

/-! ### Aggregation engine: StockTable monthly table -/

/-- Baseline data point of StockTable: the data point whose date is exactly
January 1 of the requested year if one exists, else the first data point of
the combined series (if the series is non-empty). -/
def jan1DataPoint (data : List PricePoint) (year : Nat) : Option PricePoint :=
  match data.find? (fun pt => decide (pt.date = DateYMD.mk year 1 1)) with
  | some p => some p
  | none => data.head?

/-- Per-symbol baseline of StockTable: the symbol's valid (> 0) value at
the single chosen baseline data point; absent otherwise. -/
def jan1Baseline (data : List PricePoint) (year : Nat) (s : String) :
    Option Rat :=
  match jan1DataPoint data year with
  | some p => validPrice (p.prices s)
  | none => none

/-- Rendering decision for one monthly cell of StockTable: absent when the
month value is missing or when the baseline is missing or zero, otherwise
the year-to-date change (value minus baseline). -/
def cellChange (v : Option Rat) (b : Option Rat) : Option Rat :=
  match v with
  | none => none
  | some price =>
    match b with
    | none => none
    | some bv => if bv = 0 then none else some (price - bv)

/-- Expected month numbers of StockTable: 1..currentMonth when the
requested year is the current year, else 1..12. -/
def expectedMonths (year curYear curMonth : Nat) : List Nat :=
  (List.range (if year = curYear then curMonth else 12)).map (fun k => k + 1)

/-- The month-value accumulation of StockTable: walk the data in order and,
for points landing in the requested (year, month) bucket, overwrite the
cell with each valid (> 0) observation; the final cell holds the last one. -/
def monthValue (data : List PricePoint) (year m : Nat) (s : String) :
    Option Rat :=
  data.foldl (fun acc pt =>
    if pt.date.y = year ∧ pt.date.m = m then
      match validPrice (pt.prices s) with
      | some q => some q
      | none => acc
    else acc) none

/-- The monthly table rows of StockTable: one row per expected month with
the per-symbol cell values. -/
def monthlyRows (data : List PricePoint) (year curYear curMonth : Nat) :
    List (Nat × (String → Option Rat)) :=
  (expectedMonths year curYear curMonth).map
    (fun m => (m, fun s => monthValue data year m s))

/-- The valid observations of a symbol within one (year, month) bucket, in
data order. -/
def validPricesInMonth (data : List PricePoint) (year m : Nat) (s : String) :
    List Rat :=
  data.filterMap (fun pt =>
    if pt.date.y = year ∧ pt.date.m = m then validPrice (pt.prices s)
    else none)

/-! ### Ranking engine: PortfolioGrid -/

/-- PortfolioGrid.getLatestPrice: scan from the last data point backwards
and return the first valid (> 0) price found, else none. -/
def getLatestPrice (data : List PricePoint) (s : String) : Option Rat :=
  data.reverse.findSome? (fun pt => validPrice (pt.prices s))

/-- Contribution of one portfolio entry to PortfolioGrid's latest value:
cash verbatim; otherwise shares (investment over the first valid price)
times the latest valid price, and 0 when either price is missing. -/
def latestEntryValue (data : List PricePoint) (e : String × Rat) : Rat :=
  if e.1 = "cash_amount" then e.2
  else
    match getLatestPrice data e.1 with
    | some c =>
      if 0 < c then
        match firstValidPrice data e.1 with
        | some ip => if 0 < ip then e.2 / ip * c else 0
        | none => 0
      else 0
    | none => 0

/-- PortfolioGrid.getPortfolioValue: latest total value of a portfolio. -/
def getPortfolioValue (data : List PricePoint) (pf : Portfolio) : Rat :=
  (pf.map (latestEntryValue data)).sum

/-- Total invested dollars: sum of every entry of the portfolio definition,
the reserved cash_amount entry included. -/
def sumInvest (pf : Portfolio) : Rat :=
  (pf.map Prod.snd).sum

/-- One ranking-view record as PortfolioGrid builds it. -/
structure RankEntry where
  person : String
  portfolioValue : Rat
  totalInvestment : Rat
  gain : Rat
deriving DecidableEq, Repr

/-- The unranked entries of PortfolioGrid: portfolios with an empty
definition are excluded, every other portfolio is mapped to its latest
value, total investment, and gain.  (The source maps then filters; the
filter tests only the portfolio definition, so it commutes with the map.) -/
def entriesOf (portfolios : List (String × Portfolio))
    (data : List PricePoint) : List RankEntry :=
  (portfolios.filter (fun pp => !pp.2.isEmpty)).map (fun pp =>
    { person := pp.1
      portfolioValue := getPortfolioValue data pp.2
      totalInvestment := sumInvest pp.2
      gain := getPortfolioValue data pp.2 - sumInvest pp.2 })

/-- The sort comparator of PortfolioGrid: a precedes b when a's gain is
strictly larger, or the gains are equal and a's name is not after b's. -/
def entryOrder (a b : RankEntry) : Prop :=
  b.gain < a.gain ∨ (a.gain = b.gain ∧ a.person ≤ b.person)

instance : DecidableRel entryOrder := fun a b => by
  unfold entryOrder; exact inferInstance

instance : IsTotal RankEntry entryOrder :=
  ⟨fun a b => by
    unfold entryOrder
    rcases lt_trichotomy a.gain b.gain with h | h | h
    · exact Or.inr (Or.inl h)
    · rcases le_total a.person b.person with hp | hp
      · exact Or.inl (Or.inr ⟨h, hp⟩)
      · exact Or.inr (Or.inr ⟨h.symm, hp⟩)
    · exact Or.inl (Or.inl h)⟩

instance : IsTrans RankEntry entryOrder :=
  ⟨fun a b c hab hbc => by
    unfold entryOrder at *
    rcases hab with h1 | ⟨h1, hp1⟩
    · rcases hbc with h2 | ⟨h2, _⟩
      · exact Or.inl (lt_trans h2 h1)
      · exact Or.inl (h2 ▸ h1)
    · rcases hbc with h2 | ⟨h2, hp2⟩
      · exact Or.inl (h1 ▸ h2)
      · exact Or.inr ⟨h1.trans h2, le_trans hp1 hp2⟩⟩

/-- Sorted entries (gain descending, name ascending on ties); the sort
models the stable JS Array.sort under the comparator above. -/
def sortEntries (l : List RankEntry) : List RankEntry :=
  List.insertionSort entryOrder l

/-- Length of the maximal prefix of a list of entries whose gain equals g;
applied to the reversed prefix before an index, this is the source's
backward walk through the contiguous tie group. -/
def tieLen (g : Rat) : List RankEntry → Nat
  | [] => 0
  | e :: rest => if e.gain = g then tieLen g rest + 1 else 0

/-- PortfolioGrid's ranked list: entries sorted, each paired with its rank;
the rank of the entry at index idx is idx + 1 unless earlier adjacent
entries carry the same gain, in which case the backward walk lands on the
first member of the tie group. -/
def rankedPeople (portfolios : List (String × Portfolio))
    (data : List PricePoint) : List (RankEntry × Nat) :=
  let sorted := sortEntries (entriesOf portfolios data)
  sorted.enum.map (fun ie =>
    (ie.2, ie.1 + 1 - tieLen ie.2.gain ((sorted.take ie.1).reverse)))

/-- PortfolioGrid's displayed gain percentage: gain over total investment
times 100 when the total investment is positive, else the literal 0. -/
def gainPercent (gain totInv : Rat) : Rat :=
  if 0 < totInv then gain / totInv * 100 else 0

/-! ### Definitions modelled from the spec's words (for comparison) -/

/-- Strict lexicographic order on dates. -/
def dateLtB (a b : DateYMD) : Bool :=
  a.y < b.y || (a.y = b.y && (a.m < b.m || (a.m = b.m && a.d < b.d)))

/-- Modelled from the spec: the DataIntegrityError validity condition
(strictly ascending, duplicate-free dates); no such check exists in the
source, which is why this predicate is taken from the spec's words. -/
def specDatesMonotone : List PricePoint → Bool
  | [] => true
  | [_] => true
  | a :: b :: rest => dateLtB a.date b.date && specDatesMonotone (b :: rest)

/-- Modelled from the spec: the per-entity baseline rule claimed in C6 - a
value at an observation exactly on January 1, else the entity's own
chronologically first available observation. -/
def specBaselinePerEntity (data : List PricePoint) (year : Nat) (s : String) :
    Option Rat :=
  match data.find? (fun pt => decide (pt.date = DateYMD.mk year 1 1)) with
  | some p => validPrice (p.prices s)
  | none => firstValidPrice data s

/-- Modelled from the spec: the gain-percent rule claimed in C8 - the
percentage is omitted entirely when the total investment is 0. -/
def specGainPercent (gain totInv : Rat) : Option Rat :=
  if totInv = 0 then none else some (gain / totInv * 100)

/-! ### Concrete inputs used by witnesses and counterexamples -/

/-- First data point of the spec's concrete scenario. -/
def demoPt1 : PricePoint :=
  { date := ⟨2025, 1, 2⟩,
    prices := fun s =>
      if s = "AAA" then some 100 else if s = "BBB" then some 50 else none }

/-- Second data point of the spec's concrete scenario: BBB has no further
data after January. -/
def demoPt2 : PricePoint :=
  { date := ⟨2025, 2, 1⟩,
    prices := fun s => if s = "AAA" then some 110 else none }

/-- Combined data of the spec's concrete scenario. -/
def demoData : List PricePoint := [demoPt1, demoPt2]

/-- Data for the C3 counterexample: ticker T has a recorded 0 (invalid) on
the first date and nothing afterwards, so it has no valid price anywhere. -/
def cexData3 : List PricePoint :=
  [ { date := ⟨2025, 1, 1⟩, prices := fun s => if s = "T" then some 0 else none },
    { date := ⟨2025, 1, 2⟩, prices := fun _ => none } ]

/-- Data for the C9 counterexample: duplicate dates and an out-of-order
final date. -/
def cexData9 : List PricePoint :=
  [ { date := ⟨2025, 3, 1⟩, prices := fun s => if s = "A" then some 10 else none },
    { date := ⟨2025, 3, 1⟩, prices := fun s => if s = "A" then some 20 else none },
    { date := ⟨2025, 2, 1⟩, prices := fun s => if s = "A" then some 30 else none } ]

/-- First data point of the C6 counterexample: B is priced, A is not. -/
def cexPt61 : PricePoint :=
  { date := ⟨2025, 2, 1⟩, prices := fun s => if s = "B" then some 10 else none }

/-- Second data point of the C6 counterexample: A's first observation. -/
def cexPt62 : PricePoint :=
  { date := ⟨2025, 2, 2⟩,
    prices := fun s =>
      if s = "A" then some 5 else if s = "B" then some 11 else none }

/-- Data for the C6 counterexample: no January-1 observation, and entity A
has no value at the first data point but one at the second. -/
def cexData6 : List PricePoint := [cexPt61, cexPt62]

/-- The portfolios of the claimed tie scenario, in source (insertion)
order: Bob first, gains 5000, 5000, 3000. -/
def rankDemoPortfolios : List (String × Portfolio) :=
  [("Bob", [("X", 10000)]), ("Alice", [("Y", 10000)]),
   ("Carl", [("Z", 10000)])]

/-- Initial prices for the tie scenario. -/
def rankDemoPt1 : PricePoint :=
  { date := ⟨2025, 1, 1⟩,
    prices := fun s =>
      if s = "X" then some 100 else if s = "Y" then some 100
      else if s = "Z" then some 100 else none }

/-- Latest prices for the tie scenario: X and Y gain 50 percent, Z 30. -/
def rankDemoPt2 : PricePoint :=
  { date := ⟨2025, 6, 1⟩,
    prices := fun s =>
      if s = "X" then some 150 else if s = "Y" then some 150
      else if s = "Z" then some 130 else none }

/-- Combined data of the tie scenario. -/
def rankDemoData : List PricePoint := [rankDemoPt1, rankDemoPt2]

/-- Bob's computed entry in the tie scenario. -/
def bobEntry : RankEntry := ⟨"Bob", 15000, 10000, 5000⟩

/-- Alice's computed entry in the tie scenario. -/
def aliceEntry : RankEntry := ⟨"Alice", 15000, 10000, 5000⟩

/-- Carl's computed entry in the tie scenario. -/
def carlEntry : RankEntry := ⟨"Carl", 13000, 10000, 3000⟩

/-! ### Helper lemmas -/

/-- The validity filter only lets strictly positive prices through. -/
theorem validPrice_pos {v : Option Rat} {q : Rat}
    (h : validPrice v = some q) : 0 < q := by
  cases v with
  | none => simp [validPrice] at h
  | some x =>
    by_cases hx : 0 < x
    · simp [validPrice, hx] at h
      exact h ▸ hx
    · simp [validPrice, hx] at h

/-- A first valid price is strictly positive. -/
theorem firstValidPrice_pos {data : List PricePoint} {s : String} {q : Rat}
    (h : firstValidPrice data s = some q) : 0 < q := by
  obtain ⟨pt, _, hpt⟩ := List.exists_of_findSome?_eq_some h
  exact validPrice_pos hpt

/-! ### Claims -/

/-- C1: for every date of the evaluated sequence and every ticker held with
a positive share count, the engine resolves the price in strict priority
order: the current date's valid price; else the most recent valid price at
an earlier point of the sequence; else the position contributes its raw
invested dollar amount instead of shares times price. -/
theorem c1_price_resolution_priority (data : List PricePoint) (idx : Nat)
    (pt : PricePoint) (s : String) (inv : Rat)
    (hpt : data[idx]? = some pt) (hs : s ≠ "cash_amount")
    (hpos : 0 < sharesOf data inv s) :
    (∀ p, validPrice (pt.prices s) = some p →
      entryContribution data idx pt (s, inv) = sharesOf data inv s * p) ∧
    (validPrice (pt.prices s) = none →
      ∀ p, firstValidPrice ((data.take idx).reverse) s = some p →
        entryContribution data idx pt (s, inv) = sharesOf data inv s * p) ∧
    (validPrice (pt.prices s) = none →
      firstValidPrice ((data.take idx).reverse) s = none →
      entryContribution data idx pt (s, inv) = inv) := by
  have hns : sharesOf data inv s ≠ 0 := ne_of_gt hpos
  refine ⟨fun p hp => ?_, fun hn p hp => ?_, fun hn hb => ?_⟩
  · simp [entryContribution, resolvePrice, hs, hns, hp]
  · simp [entryContribution, resolvePrice, hs, hns, hn, hp]
  · simp [entryContribution, resolvePrice, hs, hns, hn, hb]

/-- Witness for C1 at the spec's concrete scenario: on the February point
BBB has no current price and forward-fills the January price of 50. -/
theorem c1_price_resolution_priority_witness :
    entryContribution demoData 1 demoPt2 ("BBB", 70000)
      = sharesOf demoData 70000 "BBB" * 50 := by
  have h := c1_price_resolution_priority demoData 1 demoPt2 "BBB" 70000
    (by rfl) (by decide)
    (by simp [sharesOf, initialPrice, firstValidPrice, validPrice,
      demoData, demoPt1, demoPt2, List.findSome?])
  exact h.2.1 (by rfl) 50 (by rfl)

/-- C2: the share count of a portfolio entry is the invested amount
divided by the single global first valid price of the ticker, and it
multiplies back to the invested amount exactly. -/
theorem c2_share_count_roundtrip (data : List PricePoint) (s : String)
    (inv p : Rat) (hs : s ≠ "cash_amount")
    (hp : firstValidPrice data s = some p) :
    sharesOf data inv s = inv / p ∧ sharesOf data inv s * p = inv := by
  have hpos : 0 < p := firstValidPrice_pos hp
  have h1 : sharesOf data inv s = inv / p := by
    simp [sharesOf, initialPrice, hs, hp, hpos]
  exact ⟨h1, by rw [h1]; exact div_mul_cancel₀ inv (ne_of_gt hpos)⟩

/-- Witness for C2: BBB's 70000 at an initial price of 50 gives 1400
shares, and 1400 shares at 50 recover 70000. -/
theorem c2_share_count_roundtrip_witness :
    sharesOf demoData 70000 "BBB" = 70000 / 50 ∧
    sharesOf demoData 70000 "BBB" * 50 = 70000 :=
  c2_share_count_roundtrip demoData "BBB" 70000 50 (by decide) (by rfl)

/-- C4: a ticker whose computed share count is 0 contributes exactly 0 to
the portfolio value on every evaluated date, whatever price data exists;
removing the entry leaves the portfolio value unchanged. -/
theorem c4_zero_shares_zero_contribution (data : List PricePoint) (idx : Nat)
    (pt : PricePoint) (s : String) (inv : Rat) (xs ys : Portfolio)
    (hs : s ≠ "cash_amount") (h0 : sharesOf data inv s = 0) :
    entryContribution data idx pt (s, inv) = 0 ∧
    portfolioValueAt data idx pt (xs ++ (s, inv) :: ys)
      = portfolioValueAt data idx pt (xs ++ ys) := by
  have hc : entryContribution data idx pt (s, inv) = 0 := by
    simp [entryContribution, hs, h0]
  refine ⟨hc, ?_⟩
  simp [portfolioValueAt, List.map_append, List.sum_append, List.map_cons,
    List.sum_cons, hc]

/-- Witness for C4: AAA priced at 100 on the first demo date still
contributes 0 when its invested amount is 0 (share count 0). -/
theorem c4_zero_shares_zero_contribution_witness :
    entryContribution demoData 0 demoPt1 ("AAA", 0) = 0 ∧
    portfolioValueAt demoData 0 demoPt1 ([("BBB", 70000)] ++ ("AAA", 0) :: [])
      = portfolioValueAt demoData 0 demoPt1 ([("BBB", 70000)] ++ []) :=
  c4_zero_shares_zero_contribution demoData 0 demoPt1 "AAA" 0
    [("BBB", 70000)] [] (by decide)
    (by simp [sharesOf, initialPrice, firstValidPrice, validPrice,
      demoData, demoPt1, demoPt2, List.findSome?])

/-- Counterexample to C3: a ticker with no valid price anywhere is skipped
and contributes 0 on every date, not its raw invested amount of 5000. -/
theorem c3_counterexample :
    firstValidPrice cexData3 "T" = none ∧
    calculatePortfolioData [("P", [("T", 5000)])] cexData3
      = [(⟨2025, 1, 1⟩, [("P", 0)]), (⟨2025, 1, 2⟩, [("P", 0)])] ∧
    (0 : Rat) ≠ 5000 := by
  refine ⟨by rfl, ?_, by norm_num⟩
  simp [calculatePortfolioData, portfolioValueAt, entryContribution,
    resolvePrice, sharesOf, initialPrice, firstValidPrice, validPrice,
    cexData3, List.enum, List.enumFrom, List.findSome?]

/-- C3 as amended: a ticker with no valid price anywhere in the range has
share count 0 and contributes exactly 0 (it is skipped) for every
portfolio on every evaluated date; the raw-dollar fallback never reaches
such a ticker. -/
theorem c3_no_price_ticker_contributes_zero (data : List PricePoint)
    (s : String) (inv : Rat) (hs : s ≠ "cash_amount")
    (hnone : firstValidPrice data s = none) :
    sharesOf data inv s = 0 ∧
    ∀ (idx : Nat) (pt : PricePoint),
      entryContribution data idx pt (s, inv) = 0 := by
  have h0 : sharesOf data inv s = 0 := by
    simp [sharesOf, initialPrice, hs, hnone]
  exact ⟨h0, fun idx pt => by simp [entryContribution, hs, h0]⟩

/-- Witness for the amended C3 at the counterexample data. -/
theorem c3_no_price_ticker_contributes_zero_witness :
    sharesOf cexData3 5000 "T" = 0 ∧
    ∀ (idx : Nat) (pt : PricePoint),
      entryContribution cexData3 idx pt ("T", 5000) = 0 :=
  c3_no_price_ticker_contributes_zero cexData3 "T" 5000 (by decide) (by rfl)

/-- C10: in the ranking view, a ticker with no valid price at any date
contributes 0 to the latest portfolio value (no raw-dollar fallback),
while its invested amount still counts in the total investment, so it
lowers the computed gain by exactly its invested amount. -/
theorem c10_unpriced_ticker_full_loss (data : List PricePoint) (t : String)
    (inv : Rat) (xs ys : Portfolio) (ht : t ≠ "cash_amount")
    (hnone : getLatestPrice data t = none) :
    getPortfolioValue data (xs ++ (t, inv) :: ys)
      = getPortfolioValue data (xs ++ ys) ∧
    sumInvest (xs ++ (t, inv) :: ys) = sumInvest (xs ++ ys) + inv ∧
    getPortfolioValue data (xs ++ (t, inv) :: ys)
        - sumInvest (xs ++ (t, inv) :: ys)
      = getPortfolioValue data (xs ++ ys) - sumInvest (xs ++ ys) - inv := by
  have hc : latestEntryValue data (t, inv) = 0 := by
    simp [latestEntryValue, ht, hnone]
  have h1 : getPortfolioValue data (xs ++ (t, inv) :: ys)
      = getPortfolioValue data (xs ++ ys) := by
    simp [getPortfolioValue, List.map_append, List.sum_append, List.map_cons,
      List.sum_cons, hc]
  have h2 : sumInvest (xs ++ (t, inv) :: ys) = sumInvest (xs ++ ys) + inv := by
    simp [sumInvest, List.map_append, List.sum_append, List.map_cons,
      List.sum_cons]
    ring
  exact ⟨h1, h2, by rw [h1, h2]; ring⟩

/-- Witness for C10: ticker NOP has no price in the demo data; adding it
to a portfolio leaves the latest value unchanged and shifts the gain down
by its invested 1000. -/
theorem c10_unpriced_ticker_full_loss_witness :
    getPortfolioValue demoData ([("AAA", 30000)] ++ ("NOP", 1000) :: [])
      = getPortfolioValue demoData ([("AAA", 30000)] ++ []) ∧
    sumInvest ([("AAA", 30000)] ++ ("NOP", 1000) :: [])
      = sumInvest ([("AAA", 30000)] ++ []) + 1000 ∧
    getPortfolioValue demoData ([("AAA", 30000)] ++ ("NOP", 1000) :: [])
        - sumInvest ([("AAA", 30000)] ++ ("NOP", 1000) :: [])
      = getPortfolioValue demoData ([("AAA", 30000)] ++ [])
          - sumInvest ([("AAA", 30000)] ++ []) - 1000 :=
  c10_unpriced_ticker_full_loss demoData "NOP" 1000 [("AAA", 30000)] []
    (by decide) (by rfl)

/-- Counterexample to C8: the portfolio consisting of a 0-dollar cash
entry is non-empty, so it is ranked; its total investment is 0, yet the
code still attaches a gain percentage (the literal 0, rendered as +0.0%)
where the claim requires the percentage to be omitted. -/
theorem c8_counterexample :
    rankedPeople [("Z", [("cash_amount", 0)])] []
      = [({ person := "Z", portfolioValue := 0, totalInvestment := 0,
            gain := 0 }, 1)] ∧
    gainPercent 0 0 = 0 ∧
    specGainPercent 0 0 = none := by
  refine ⟨?_, by simp [gainPercent], by simp [specGainPercent]⟩
  simp [rankedPeople, sortEntries, entriesOf, getPortfolioValue,
    latestEntryValue, sumInvest, List.insertionSort, List.orderedInsert,
    tieLen, List.enum, List.enumFrom]

/-- C8 as amended: every ranked entry's gain is its latest portfolio value
minus the total invested dollars (cash_amount included), and the attached
gain percentage is gain over total times 100 when the total is positive
and the literal 0 (still attached, not omitted) when the total is 0. -/
theorem c8_gain_and_percent (portfolios : List (String × Portfolio))
    (data : List PricePoint) (e : RankEntry) (r : Nat)
    (h : (e, r) ∈ rankedPeople portfolios data) :
    (∃ pf, (e.person, pf) ∈ portfolios ∧ pf ≠ [] ∧
      e.portfolioValue = getPortfolioValue data pf ∧
      e.totalInvestment = sumInvest pf) ∧
    e.gain = e.portfolioValue - e.totalInvestment ∧
    (0 < e.totalInvestment →
      gainPercent e.gain e.totalInvestment
        = e.gain / e.totalInvestment * 100) ∧
    (e.totalInvestment = 0 → gainPercent e.gain e.totalInvestment = 0) := by
  simp only [rankedPeople] at h
  rcases List.mem_map.mp h with ⟨ie, hie, heq⟩
  have he : e ∈ sortEntries (entriesOf portfolios data) := by
    have h2 : ie.2 = e := congrArg Prod.fst heq
    exact h2 ▸ List.snd_mem_of_mem_enum hie
  have he2 : e ∈ entriesOf portfolios data :=
    (List.perm_insertionSort entryOrder (entriesOf portfolios data)).subset he
  rcases List.mem_map.mp he2 with ⟨pp, hpp, hpe⟩
  have hmem : pp ∈ portfolios := List.mem_of_mem_filter hpp
  have hne : pp.2 ≠ [] := by
    have := List.of_mem_filter hpp
    simpa [List.isEmpty_iff] using this
  refine ⟨⟨pp.2, ?_, hne, ?_, ?_⟩, ?_, fun hpos => ?_, fun h0 => ?_⟩
  · have hp1 : e.person = pp.1 := by rw [← hpe]
    rw [hp1, Prod.mk.eta]
    exact hmem
  · rw [← hpe]
  · rw [← hpe]
  · rw [← hpe]
  · simp [gainPercent, hpos]
  · simp [gainPercent, h0]

/-- Witness for the amended C8: one portfolio of 100 dollars in AAA on the
demo data is worth 110 at the latest price, a gain of 10 and +10%. -/
theorem c8_gain_and_percent_witness :
    (∃ pf, (("W" : String), pf) ∈ ([("W", [("AAA", 100)])] :
        List (String × Portfolio)) ∧ pf ≠ [] ∧
      (110 : Rat) = getPortfolioValue demoData pf ∧
      (100 : Rat) = sumInvest pf) ∧
    (10 : Rat) = 110 - 100 ∧
    ((0 : Rat) < 100 → gainPercent 10 100 = 10 / 100 * 100) ∧
    ((100 : Rat) = 0 → gainPercent 10 100 = 0) :=
  c8_gain_and_percent [("W", [("AAA", 100)])] demoData
    ⟨"W", 110, 100, 10⟩ 1
    (by simp [rankedPeople, sortEntries, entriesOf, getPortfolioValue,
      latestEntryValue, getLatestPrice, firstValidPrice, validPrice,
      sumInvest, demoData, demoPt1, demoPt2, List.findSome?,
      List.insertionSort, List.orderedInsert, tieLen, List.enum,
      List.enumFrom] <;> norm_num)

/-- Counterexample to C9: on a series with duplicate and unsorted dates
the engine does not fail with any DataIntegrityError - it has no integrity
check at all and silently computes a complete normal result. -/
theorem c9_counterexample :
    specDatesMonotone cexData9 = false ∧
    calculatePortfolioData [("P", [("A", 100)])] cexData9
      = [(⟨2025, 3, 1⟩, [("P", 100)]), (⟨2025, 3, 1⟩, [("P", 200)]),
         (⟨2025, 2, 1⟩, [("P", 300)])] := by
  refine ⟨by rfl, ?_⟩
  simp [calculatePortfolioData, portfolioValueAt, entryContribution,
    resolvePrice, sharesOf, initialPrice, firstValidPrice, validPrice,
    cexData9, List.enum, List.enumFrom, List.findSome?]
  norm_num

/-- C9 as amended: the engine performs no validation of the date sequence;
for every input, sorted or not, it totally processes each point and emits
one output row per input point carrying that point's date (no error is
ever raised, missing data degrading via the fallback rule). -/
theorem c9_engine_total_no_check (portfolios : List (String × Portfolio))
    (data : List PricePoint) :
    (calculatePortfolioData portfolios data).map Prod.fst
      = data.map PricePoint.date := by
  unfold calculatePortfolioData
  rw [List.map_map]
  have h1 : (Prod.fst ∘ fun ip : Nat × PricePoint =>
      (ip.2.date, portfolios.map (fun pp =>
        (pp.1, portfolioValueAt data ip.1 ip.2 pp.2))))
      = (PricePoint.date ∘ Prod.snd) := rfl
  rw [h1, ← List.map_map, List.enum_map_snd]

/-- The last element of a cons is the last element of the tail when the
tail is non-empty, else the head. -/
theorem getLast?_cons_or {α : Type _} (a : α) (l : List α) :
    (a :: l).getLast? = (l.getLast?).or (some a) := by
  cases l with
  | nil => simp
  | cons b l2 =>
    rw [List.getLast?_cons_cons]
    cases h : (b :: l2).getLast? with
    | none => exact absurd (List.getLast?_eq_none_iff.mp h) (by simp)
    | some x => simp

/-- An element returned by getLast? belongs to the list. -/
theorem mem_of_getLast?_eq {α : Type _} :
    ∀ {l : List α} {a : α}, l.getLast? = some a → a ∈ l := by
  intro l
  induction l with
  | nil => intro a h; simp at h
  | cons b l2 ih =>
    intro a h
    cases l2 with
    | nil =>
      simp at h
      simp [h]
    | cons c l3 =>
      rw [List.getLast?_cons_cons] at h
      exact List.mem_cons_of_mem b (ih h)

/-- The overwrite-fold of monthValue computes the last valid observation
of the month, scanning from an arbitrary accumulator. -/
theorem monthValue_foldl_aux (year m : Nat) (s : String) :
    ∀ (l : List PricePoint) (acc : Option Rat),
      l.foldl (fun acc pt =>
        if pt.date.y = year ∧ pt.date.m = m then
          match validPrice (pt.prices s) with
          | some q => some q
          | none => acc
        else acc) acc
      = ((l.filterMap (fun pt =>
          if pt.date.y = year ∧ pt.date.m = m then validPrice (pt.prices s)
          else none)).getLast?).or acc := by
  intro l
  induction l with
  | nil => intro acc; simp
  | cons pt rest ih =>
    intro acc
    rw [List.foldl_cons, List.filterMap_cons]
    by_cases hc : pt.date.y = year ∧ pt.date.m = m
    · cases hv : validPrice (pt.prices s) with
      | none =>
        simp only [hc, and_self, if_true, hv]
        rw [ih acc]
      | some q =>
        simp only [hc, and_self, if_true, hv]
        rw [ih (some q), getLast?_cons_or, Option.or_assoc]
        simp
    · simp only [hc, if_false]
      exact ih acc

/-- monthValue is the last valid observation within the month. -/
theorem monthValue_eq_getLast (data : List PricePoint) (year m : Nat)
    (s : String) :
    monthValue data year m s = (validPricesInMonth data year m s).getLast? := by
  rw [monthValue, validPricesInMonth, monthValue_foldl_aux, Option.or_none]

/-- Every recorded month observation is strictly positive. -/
theorem validPricesInMonth_pos {data : List PricePoint} {year m : Nat}
    {s : String} {q : Rat} (hq : q ∈ validPricesInMonth data year m s) :
    0 < q := by
  rcases List.mem_filterMap.mp hq with ⟨pt, _, hpt⟩
  by_cases hc : pt.date.y = year ∧ pt.date.m = m
  · rw [if_pos hc] at hpt
    exact validPrice_pos hpt
  · rw [if_neg hc] at hpt
    exact absurd hpt (by simp)

/-- C7: every cell of the monthly table holds the last valid observation
recorded within that month for the symbol; a month with no valid
observation is absent for it, and a present cell is never the zero an
absent cell could be confused with. -/
theorem c7_month_last_valid_observation (data : List PricePoint)
    (year curYear curMonth m : Nat) (cells : String → Option Rat)
    (hrow : (m, cells) ∈ monthlyRows data year curYear curMonth)
    (s : String) :
    cells s = (validPricesInMonth data year m s).getLast? ∧
    (cells s = none ↔ validPricesInMonth data year m s = []) ∧
    (∀ q, cells s = some q → 0 < q) := by
  rcases List.mem_map.mp hrow with ⟨m2, _, heq⟩
  have hm : m2 = m := congrArg Prod.fst heq
  have hcells : cells = fun s2 => monthValue data year m s2 := by
    have h2 : (fun s2 => monthValue data year m2 s2) = cells :=
      congrArg Prod.snd heq
    rw [← h2, hm]
  have hval : cells s = (validPricesInMonth data year m s).getLast? := by
    rw [hcells]
    exact monthValue_eq_getLast data year m s
  refine ⟨hval, ?_, ?_⟩
  · rw [hval]
    exact List.getLast?_eq_none_iff
  · intro q hq
    exact validPricesInMonth_pos (mem_of_getLast?_eq (hval ▸ hq))

/-- Witness for C7 at the demo data: February's cell for AAA is the last
(only) February observation, 110. -/
theorem c7_month_last_valid_observation_witness :
    monthValue demoData 2025 2 "AAA"
      = (validPricesInMonth demoData 2025 2 "AAA").getLast? ∧
    (monthValue demoData 2025 2 "AAA" = none ↔
      validPricesInMonth demoData 2025 2 "AAA" = []) ∧
    (∀ q, monthValue demoData 2025 2 "AAA" = some q → 0 < q) :=
  c7_month_last_valid_observation demoData 2025 2025 2 2
    (fun s2 => monthValue demoData 2025 2 s2)
    (by
      have h : monthlyRows demoData 2025 2025 2
          = [(1, fun s2 => monthValue demoData 2025 1 s2),
             (2, fun s2 => monthValue demoData 2025 2 s2)] := rfl
      rw [h]
      exact List.mem_cons_of_mem _ (List.mem_cons_self _ _)) "AAA"

/-- Counterexample to C6: with no January-1 observation, the claim's
per-entity fallback gives A its chronologically first observation 5, but
the code consults only the globally first data point, where A has no valid
value, so A gets no baseline at all. -/
theorem c6_counterexample :
    specBaselinePerEntity cexData6 2025 "A" = some 5 ∧
    jan1Baseline cexData6 2025 "A" = none := by
  exact ⟨rfl, rfl⟩

/-- C6 as amended: the baseline point is chosen once globally (the data
point exactly on January 1 if present, else the first data point); an
entity's baseline is its valid value at that single point, and when that
leaves the entity without a baseline every cell of its column renders as
no-data, with no delta computed. -/
theorem c6_baseline_single_global_point (data : List PricePoint)
    (year : Nat) (s : String) :
    (∀ p, data.find? (fun pt => decide (pt.date = DateYMD.mk year 1 1))
        = some p →
      jan1Baseline data year s = validPrice (p.prices s)) ∧
    (data.find? (fun pt => decide (pt.date = DateYMD.mk year 1 1)) = none →
      ∀ p, data.head? = some p →
        jan1Baseline data year s = validPrice (p.prices s)) ∧
    (jan1Baseline data year s = none →
      ∀ v, cellChange v (jan1Baseline data year s) = none) := by
  refine ⟨fun p hp => ?_, fun hn p hp => ?_, fun hb v => ?_⟩
  · simp [jan1Baseline, jan1DataPoint, hp]
  · simp [jan1Baseline, jan1DataPoint, hn, hp]
  · rw [hb]
    cases v <;> simp [cellChange]

/-- Witness for the amended C6 at the counterexample data: the baseline
point is the first data point, A has no baseline there, and A's cells all
render as no-data. -/
theorem c6_baseline_single_global_point_witness :
    jan1Baseline cexData6 2025 "A" = validPrice (cexPt61.prices "A") ∧
    ∀ v, cellChange v (jan1Baseline cexData6 2025 "A") = none := by
  have h := c6_baseline_single_global_point cexData6 2025 "A"
  exact ⟨h.2.1 (by rfl) cexPt61 (by rfl), h.2.2 (by rfl)⟩

/-- Stripping the ranks from the ranked list recovers the sorted entry
list. -/
theorem rankedPeople_map_fst (portfolios : List (String × Portfolio))
    (data : List PricePoint) :
    (rankedPeople portfolios data).map Prod.fst
      = sortEntries (entriesOf portfolios data) := by
  simp only [rankedPeople]
  rw [List.map_map]
  exact List.enum_map_snd (sortEntries (entriesOf portfolios data))

/-- The ranked list has one entry per sorted entry. -/
theorem rankedPeople_length (portfolios : List (String × Portfolio))
    (data : List PricePoint) :
    (rankedPeople portfolios data).length
      = (sortEntries (entriesOf portfolios data)).length := by
  simp only [rankedPeople]
  rw [List.length_map, List.enum_length]

/-- Closed form of the i-th ranked element: the i-th sorted entry paired
with i + 1 minus the length of the backward tie run before it. -/
theorem rankedPeople_get (portfolios : List (String × Portfolio))
    (data : List PricePoint) (i : Nat)
    (hi : i < (rankedPeople portfolios data).length)
    (hs : i < (sortEntries (entriesOf portfolios data)).length) :
    (rankedPeople portfolios data).get ⟨i, hi⟩
      = ((sortEntries (entriesOf portfolios data)).get ⟨i, hs⟩,
         i + 1 - tieLen
           ((sortEntries (entriesOf portfolios data)).get ⟨i, hs⟩).gain
           (((sortEntries (entriesOf portfolios data)).take i).reverse)) := by
  simp only [rankedPeople, List.get_eq_getElem, List.getElem_map,
    List.getElem_enum]

/-- Reversing one more taken element conses that element on front. -/
theorem take_succ_reverse {α : Type _} (l : List α) (i : Nat)
    (h : i < l.length) :
    (l.take (i + 1)).reverse = l.get ⟨i, h⟩ :: (l.take i).reverse := by
  rw [← List.take_concat_get l i h, List.concat_eq_append,
    List.reverse_concat]
  simp [List.get_eq_getElem]

/-- Concrete entry evaluation for the tie scenario. -/
theorem rankDemo_entries :
    entriesOf rankDemoPortfolios rankDemoData
      = [bobEntry, aliceEntry, carlEntry] := by
  simp [entriesOf, getPortfolioValue, latestEntryValue, getLatestPrice,
    firstValidPrice, validPrice, sumInvest, rankDemoPortfolios,
    rankDemoData, rankDemoPt1, rankDemoPt2, List.findSome?, bobEntry,
    aliceEntry, carlEntry, RankEntry.mk.injEq]
  norm_num

/-- Sorting the tie scenario moves Alice before Bob (equal gains, name
ascending) and leaves Carl last. -/
theorem rankDemo_sorted :
    sortEntries [bobEntry, aliceEntry, carlEntry]
      = [aliceEntry, bobEntry, carlEntry] := by
  have hac : entryOrder aliceEntry carlEntry :=
    Or.inl (by norm_num [aliceEntry, carlEntry])
  have hbc : entryOrder bobEntry carlEntry :=
    Or.inl (by norm_num [bobEntry, carlEntry])
  have hba : ¬ entryOrder bobEntry aliceEntry := by
    intro hcon
    rcases hcon with h | ⟨_, h⟩
    · norm_num [bobEntry, aliceEntry] at h
    · revert h
      simp [bobEntry, aliceEntry]
      decide
  show List.insertionSort entryOrder [bobEntry, aliceEntry, carlEntry] = _
  simp only [List.insertionSort, List.orderedInsert]
  rw [if_neg hba, if_pos hbc]

/-- Concrete ranked list for the tie scenario: Alice 1st, Bob 1st,
Carl 3rd. -/
theorem rankDemo_ranked :
    rankedPeople rankDemoPortfolios rankDemoData
      = [(aliceEntry, 1), (bobEntry, 1), (carlEntry, 3)] := by
  simp only [rankedPeople]
  rw [rankDemo_entries, rankDemo_sorted]
  decide

/-- C5: the ranked list consists of exactly the portfolios with non-empty
definitions, ordered by gain descending with ties broken by name
ascending; ranks follow standard competition ranking (the first entry has
rank 1, a tied successor repeats the predecessor's rank, a distinct
successor at index i gets rank i + 2); in the claimed scenario with gains
5000, 5000, 3000 for Bob, Alice, Carl, the result is Alice rank 1, Bob
rank 1, Carl rank 3. -/
theorem c5_competition_ranking (portfolios : List (String × Portfolio))
    (data : List PricePoint) :
    ((rankedPeople portfolios data).map Prod.fst).Perm
        (entriesOf portfolios data) ∧
    List.Sorted entryOrder ((rankedPeople portfolios data).map Prod.fst) ∧
    (∀ h0 : 0 < (rankedPeople portfolios data).length,
      ((rankedPeople portfolios data).get ⟨0, h0⟩).2 = 1) ∧
    (∀ (i : Nat) (hi : i + 1 < (rankedPeople portfolios data).length),
      (((rankedPeople portfolios data).get
            ⟨i, Nat.lt_of_succ_lt hi⟩).1.gain
          = ((rankedPeople portfolios data).get ⟨i + 1, hi⟩).1.gain →
        ((rankedPeople portfolios data).get ⟨i + 1, hi⟩).2
          = ((rankedPeople portfolios data).get
              ⟨i, Nat.lt_of_succ_lt hi⟩).2) ∧
      (((rankedPeople portfolios data).get
            ⟨i, Nat.lt_of_succ_lt hi⟩).1.gain
          ≠ ((rankedPeople portfolios data).get ⟨i + 1, hi⟩).1.gain →
        ((rankedPeople portfolios data).get ⟨i + 1, hi⟩).2 = i + 2)) ∧
    rankedPeople rankDemoPortfolios rankDemoData
      = [(aliceEntry, 1), (bobEntry, 1), (carlEntry, 3)] := by
  refine ⟨?_, ?_, ?_, ?_, rankDemo_ranked⟩
  · rw [rankedPeople_map_fst]
    exact List.perm_insertionSort entryOrder (entriesOf portfolios data)
  · rw [rankedPeople_map_fst]
    exact List.sorted_insertionSort entryOrder (entriesOf portfolios data)
  · intro h0
    have hs : 0 < (sortEntries (entriesOf portfolios data)).length := by
      rw [← rankedPeople_length portfolios data]
      exact h0
    rw [rankedPeople_get portfolios data 0 h0 hs]
    simp [tieLen]
  · intro i hi
    have hs1 : i < (sortEntries (entriesOf portfolios data)).length := by
      rw [← rankedPeople_length portfolios data]
      exact Nat.lt_of_succ_lt hi
    have hs2 : i + 1 < (sortEntries (entriesOf portfolios data)).length := by
      rw [← rankedPeople_length portfolios data]
      exact hi
    have hgi := rankedPeople_get portfolios data i (Nat.lt_of_succ_lt hi) hs1
    have hgi1 := rankedPeople_get portfolios data (i + 1) hi hs2
    have hrev := take_succ_reverse (sortEntries (entriesOf portfolios data))
      i hs1
    rw [hgi, hgi1]
    dsimp only
    rw [hrev]
    simp only [tieLen]
    constructor
    · intro heq
      rw [if_pos heq, heq]
      omega
    · intro hne
      rw [if_neg hne]
      omega

/-- Witness for C5 at the tie scenario: the assigned ranks are 1, 1, 3. -/
theorem c5_competition_ranking_witness :
    (rankedPeople rankDemoPortfolios rankDemoData).map Prod.snd
      = [1, 1, 3] := by
  have h := c5_competition_ranking rankDemoPortfolios rankDemoData
  have hd := h.2.2.2.2
  have h0 : 0 < (rankedPeople rankDemoPortfolios rankDemoData).length := by
    rw [hd]
    decide
  have _h1 := h.2.2.1 h0
  rw [hd]
  rfl

end StockTracker
